import Mathlib

/-!
Verification development for the zk-Citizen repository (Mina / o1js).

Modeling conventions (shallow embedding):

* o1js `Field` elements are modeled as unbounded natural numbers.  No claim in
  this development probes field overflow, and the Poseidon hash is idealized as
  a perfectly collision-free (injective) encoding of its input list — the
  standard idealization of a collision-resistant hash.  Where the source
  subtracts (age computations) the embedding uses `Int`, matching field
  subtraction on the realistic in-range inputs the claims quantify over.
* JavaScript strings are modeled by their UTF-8 byte sequences
  (`List Nat`, each entry < 256), exactly what `TextEncoder().encode` /
  `Buffer.from(v, "utf-8")` produce in the source.
* `MerkleTree` leaves and `MerkleMap` entries touched by the service code are
  modeled with association lists / membership lists; Merkle witnesses are
  modeled as sibling paths folded with the hash, mirroring
  `MerkleWitness.calculateRoot` of o1js.
* Mina signatures are idealized as unforgeable: a signature is the pair of the
  signing key and the signed message, and verification checks both.
* `uuid` identifiers and `Date` timestamps carried in records are inessential
  to every claim and are omitted from the embedded records.
-/

/-- Idealized Poseidon sponge: an injective encoding of a list of field
elements into a natural number (collision resistance taken as perfect). -/
def encodeFields : List Nat → Nat
  | [] => 0
  | x :: xs => Nat.pair x (encodeFields xs) + 1

/-- Model of `Poseidon.hash` from o1js. -/
def Poseidon.hash (l : List Nat) : Nat := encodeFields l

/-- Big-endian base-256 value of a byte list: the number denoted by the
concatenated two-digit hex encodings built in the source loops. -/
def beNat (l : List Nat) : Nat := l.foldl (fun a b => 256 * a + b) 0

/-- Field value of one 31-byte chunk: the chunk bytes in hex, right-padded
with zeros to 62 hex digits, read as a number — `BigInt("0x" + hex.padEnd(62, "0"))`
in the source. -/
def chunkVal (c : List Nat) : Nat := beNat c * 16 ^ (62 - 2 * c.length)

/-- Split a byte list into successive chunks of (at most) 31 bytes: chunk i
holds bytes 31*i to 31*i+30, exactly the `for i = 0; i < bytes.length; i += 31`
loops of the source. -/
def chunksOf31 (l : List Nat) : List (List Nat) :=
  (List.range ((l.length + 30) / 31)).map (fun i => (l.drop (31 * i)).take 31)

/-- Field list fed to Poseidon for a string value: the 31-byte chunk values,
or the single designated zero element for the empty string. -/
def stringFields (b : List Nat) : List Nat :=
  let fields := (chunksOf31 b).map chunkVal
  if fields = [] then [0] else fields

/-- Embeds `PassportUtils.createStringCommitment` and the identical
`PassportService.createStringCommitment`: hash the 31-byte chunk fields of the
value, then hash that together with the salt. -/
def createStringCommitment (value : List Nat) (salt : Nat) : Nat :=
  Poseidon.hash [Poseidon.hash (stringFields value), salt]

/-- Embeds `CensusService.hashString`: hash of the chunk fields, no salt. -/
def CensusService.hashString (value : List Nat) : Nat :=
  Poseidon.hash (stringFields value)

/-- Embeds `PassportUtils.createDateCommitment` and the identical
`PassportService.createDateCommitment`. -/
def createDateCommitment (year month day salt : Nat) : Nat :=
  Poseidon.hash [year, month, day, salt]

/-- Embeds `PassportUtils.createNullifier`: chunk-hash the id number, then
hash that together with the secret. -/
def PassportUtils.createNullifier (idNumber : List Nat) (secret : Nat) : Nat :=
  Poseidon.hash [Poseidon.hash (stringFields idNumber), secret]

/-- The nullifier derivation inside `PassportService.registerIdentity`:
`Poseidon.hash([createStringCommitment(idNumber, nullifierSecret), nullifierSecret])`. -/
def PassportService.registerIdentityNullifier (idNumber : List Nat) (nullifierSecret : Nat) : Nat :=
  Poseidon.hash [createStringCommitment idNumber nullifierSecret, nullifierSecret]

/-- Embeds `CensusUtils.createCensusNullifier`. -/
def CensusUtils.createCensusNullifier (passportCommitment censusId secret : Nat) : Nat :=
  Poseidon.hash [passportCommitment, censusId, secret]

/-- Embeds `ZkPassport.proveAgeAbove`: true when every assertion of the method
passes.  The subtraction is carried out in `Int`, matching field subtraction on
the in-range inputs the claims quantify over; `currentMonth` and `currentDay`
are parameters of the source method that its body never reads. -/
def ZkPassport.proveAgeAbove (dobYear dobMonth dobDay salt dobCommitment minAge
    currentYear currentMonth currentDay : Nat) : Bool :=
  decide (Poseidon.hash [dobYear, dobMonth, dobDay, salt] = dobCommitment) &&
  decide ((minAge : Int) ≤ (currentYear : Int) - (dobYear : Int))

/-- Embeds `ZkPassport.proveNationality`: commitment check, then exact field
equality with the target. -/
def ZkPassport.proveNationality (nationality salt nationalityCommitment
    targetNationality : Nat) : Bool :=
  decide (Poseidon.hash [nationality, salt] = nationalityCommitment) &&
  decide (nationality = targetNationality)

/-- Age as computed by `PassportService.generateAgeProof`: year difference,
decremented when the current month/day precede the birthday month/day. -/
def PassportService.calculateAge (dobYear dobMonth dobDay currentYear currentMonth
    currentDay : Nat) : Int :=
  let age : Int := (currentYear : Int) - (dobYear : Int)
  if currentMonth < dobMonth ∨ (currentMonth = dobMonth ∧ currentDay < dobDay) then
    age - 1
  else
    age

/-- The `isValid` flag returned by `PassportService.generateAgeProof`. -/
def PassportService.ageProofIsValid (dobYear dobMonth dobDay currentYear currentMonth
    currentDay minAge : Nat) : Bool :=
  decide ((minAge : Int) ≤
    PassportService.calculateAge dobYear dobMonth dobDay currentYear currentMonth currentDay)

/-- ASCII lowercasing of one byte — the fragment of
`String.prototype.toLowerCase` exercised by the nationality strings of the
claims. -/
def toLowerByte (b : Nat) : Nat := if 65 ≤ b ∧ b ≤ 90 then b + 32 else b

/-- Bytewise lowercasing of a string value. -/
def toLowerBytes (s : List Nat) : List Nat := s.map toLowerByte

/-- The `isValid` flag returned by `PassportService.generateNationalityProof`:
the source compares `nationality.toLowerCase()` with
`targetNationality.toLowerCase()`. -/
def PassportService.nationalityProofIsValid (nationality targetNationality : List Nat) : Bool :=
  decide (toLowerBytes nationality = toLowerBytes targetNationality)

/-- Embeds the `IdentityAttributes` struct of the ZkPassport contract. -/
structure IdentityAttributes where
  nameCommitment : Nat
  dobCommitment : Nat
  nationalityCommitment : Nat
  idCommitment : Nat
  salt : Nat
  deriving DecidableEq

/-- Embeds `IdentityAttributes.hash`. -/
def IdentityAttributes.hash (a : IdentityAttributes) : Nat :=
  Poseidon.hash [a.nameCommitment, a.dobCommitment, a.nationalityCommitment,
    a.idCommitment, a.salt]

/-- One level of an o1js Merkle witness: whether the current node is the left
child, and the sibling hash. -/
structure WitnessStep where
  isLeft : Bool
  sibling : Nat
  deriving DecidableEq

/-- Embeds `MerkleWitness.calculateRoot` of o1js: fold the sibling path up
from the leaf.  The contract instantiates witnesses at fixed height 20. -/
def calculateRoot (witness : List WitnessStep) (leaf : Nat) : Nat :=
  witness.foldl
    (fun h st =>
      if st.isLeft then Poseidon.hash [h, st.sibling] else Poseidon.hash [st.sibling, h])
    leaf

/-- Idealized Mina signature: the signed message together with the signing
key; verification is exact equality (unforgeability idealized, private key
identified with its public key). -/
structure Signature where
  signerKey : Nat
  message : List Nat
  deriving DecidableEq

/-- Embeds `Signature.create`. -/
def Signature.create (privateKey : Nat) (message : List Nat) : Signature :=
  { signerKey := privateKey, message := message }

/-- Embeds `Signature.verify`. -/
def Signature.verify (sig : Signature) (publicKey : Nat) (message : List Nat) : Bool :=
  decide (sig.signerKey = publicKey ∧ sig.message = message)

/-- On-chain state of the ZkPassport contract. -/
structure ZkPassportState where
  passportRoot : Nat
  totalPassports : Nat
  admin : Nat
  nullifierRoot : Nat
  deriving DecidableEq

/-- Embeds `ZkPassport.init` (the admin key is installed separately by
`setAdmin` and is carried here as a parameter). -/
def ZkPassport.init (admin : Nat) : ZkPassportState :=
  { passportRoot := 0, totalPassports := 0, admin := admin, nullifierRoot := 0 }

/-- Embeds `ZkPassport.registerPassport` in source order.  The method's
assertions are checks that, when failing, abort the whole transaction and
leave the state unchanged; the state writes land only when every assertion
passes (o1js transaction semantics).  The method reads `nullifierRoot` and
requires it to equal its own current value, but never inspects the
`nullifier` argument against it and never writes it. -/
def ZkPassport.registerPassport (s : ZkPassportState)
    (identityAttributes : IdentityAttributes) (nullifier : Nat)
    (witness : List WitnessStep) (adminSignature : Signature) :
    ZkPassportState × Bool :=
  let identityHash := identityAttributes.hash
  if adminSignature.verify s.admin [identityHash, nullifier] then
    let passportCommitment := Poseidon.hash [identityHash, nullifier]
    if calculateRoot witness 0 = s.passportRoot then
      ({ s with passportRoot := calculateRoot witness passportCommitment,
                totalPassports := s.totalPassports + 1 }, true)
    else (s, false)
  else (s, false)

/-- Folds a sequence of registerPassport transactions over the contract
state (failed transactions leave the state as they found it). -/
def ZkPassport.applyCalls (s : ZkPassportState)
    (calls : List (IdentityAttributes × Nat × List WitnessStep × Signature)) :
    ZkPassportState :=
  calls.foldl
    (fun st c => (ZkPassport.registerPassport st c.1 c.2.1 c.2.2.1 c.2.2.2).1) s

/-- Embeds the `DemographicData` struct of the ZkCensus contract (all fields
are field elements). -/
structure DemographicData where
  ageBracket : Nat
  regionCode : Nat
  membershipTier : Nat
  joinTimeBracket : Nat
  deriving DecidableEq

/-- Embeds `DemographicData.hash`. -/
def DemographicData.hash (d : DemographicData) : Nat :=
  Poseidon.hash [d.ageBracket, d.regionCode, d.membershipTier, d.joinTimeBracket]

/-- Embeds the `DemographicAggregates` struct of the ZkCensus contract. -/
structure DemographicAggregates where
  age0to17 : Nat
  age18to25 : Nat
  age26to35 : Nat
  age36to50 : Nat
  age51to65 : Nat
  age65plus : Nat
  total : Nat
  deriving DecidableEq

/-- Embeds `DemographicAggregates.hash`. -/
def DemographicAggregates.hash (a : DemographicAggregates) : Nat :=
  Poseidon.hash [a.age0to17, a.age18to25, a.age26to35, a.age36to50,
    a.age51to65, a.age65plus, a.total]

/-- Embeds `DemographicAggregates.verifyTotal`. -/
def DemographicAggregates.verifyTotal (a : DemographicAggregates) : Bool :=
  decide (a.age0to17 + a.age18to25 + a.age26to35 + a.age36to50 +
    a.age51to65 + a.age65plus = a.total)

/-- On-chain state of the ZkCensus contract. -/
structure ZkCensusState where
  participantRoot : Nat
  totalParticipants : Nat
  nullifierRoot : Nat
  latestSnapshotHash : Nat
  admin : Nat
  communityId : Nat
  demographicsHash : Nat
  deriving DecidableEq

/-- Idealized o1js `MerkleMapWitness`: the witness fixes the key it speaks
about and, as a function of the value placed at that key, the map root it
recomputes (`computeRootAndKeyV2`). -/
structure MerkleMapWitness where
  key : Nat
  rootAt : Nat → Nat

/-- Embeds `MerkleMapWitness.computeRootAndKeyV2`. -/
def MerkleMapWitness.computeRootAndKeyV2 (w : MerkleMapWitness) (value : Nat) : Nat × Nat :=
  (w.rootAt value, w.key)

/-- Embeds `ZkCensus.registerParticipant` in source order: all assertions
(nullifier-absence witness against the nullifier root, witness key equals the
presented nullifier, empty-slot witness against the participant root) precede
all state writes; a failing assertion aborts the transaction with the state
unchanged. -/
def ZkCensus.registerParticipant (s : ZkCensusState) (passportCommitment nullifier : Nat)
    (demographics : DemographicData) (participantWitness : List WitnessStep)
    (nullifierWitness : MerkleMapWitness) : ZkCensusState × Bool :=
  let computed := nullifierWitness.computeRootAndKeyV2 0
  if computed.1 = s.nullifierRoot then
    if computed.2 = nullifier then
      let participantEntry := Poseidon.hash [passportCommitment, demographics.hash, nullifier]
      if calculateRoot participantWitness 0 = s.participantRoot then
        ({ s with participantRoot := calculateRoot participantWitness participantEntry,
                  nullifierRoot := (nullifierWitness.computeRootAndKeyV2 1).1,
                  totalParticipants := s.totalParticipants + 1 }, true)
      else (s, false)
    else (s, false)
  else (s, false)

/-- Embeds the `DemographicBrackets` input record of the census service.  The
age bracket is a caller-controlled integer (the source range-checks it only
inside `updateAggregates`); the region code is a string. -/
structure DemographicBrackets where
  ageBracket : Int
  regionCode : List Nat
  membershipTier : Nat
  joinTimeBracket : Nat
  deriving DecidableEq

/-- Embeds the `DemographicAggregatesData` record of the census service; the
`Record` distributions become association lists. -/
structure DemographicAggregatesData where
  age0to17 : Nat
  age18to25 : Nat
  age26to35 : Nat
  age36to50 : Nat
  age51to65 : Nat
  age65plus : Nat
  total : Nat
  regionDistribution : List (List Nat × Nat)
  tierDistribution : List (Nat × Nat)
  deriving DecidableEq

/-- Increment-or-insert on an association list, the
`m[k] = (m[k] or 0) + 1` pattern of `updateAggregates`. -/
def bumpCount {α : Type} [DecidableEq α] : List (α × Nat) → α → List (α × Nat)
  | [], k => [(k, 1)]
  | (k0, c) :: rest, k =>
      if k0 = k then (k0, c + 1) :: rest else (k0, c) :: bumpCount rest k

/-- Embeds `CensusService.updateAggregates`: an in-range age bracket bumps its
bucket, an out-of-range one bumps nothing; the region and tier distributions
and the running total are always updated. -/
def CensusService.updateAggregates (a : DemographicAggregatesData)
    (d : DemographicBrackets) : DemographicAggregatesData :=
  let a1 :=
    if 0 ≤ d.ageBracket ∧ d.ageBracket < 6 then
      if d.ageBracket = 0 then { a with age0to17 := a.age0to17 + 1 }
      else if d.ageBracket = 1 then { a with age18to25 := a.age18to25 + 1 }
      else if d.ageBracket = 2 then { a with age26to35 := a.age26to35 + 1 }
      else if d.ageBracket = 3 then { a with age36to50 := a.age36to50 + 1 }
      else if d.ageBracket = 4 then { a with age51to65 := a.age51to65 + 1 }
      else { a with age65plus := a.age65plus + 1 }
    else a
  { a1 with
      regionDistribution := bumpCount a1.regionDistribution d.regionCode,
      tierDistribution := bumpCount a1.tierDistribution d.membershipTier,
      total := a1.total + 1 }

/-- Embeds `CensusService.createDemographicHash`.  A negative age bracket is
coerced through `toNat`; no claim evaluates the hash at a negative bracket. -/
def CensusService.createDemographicHash (d : DemographicBrackets) : Nat :=
  Poseidon.hash [d.ageBracket.toNat, CensusService.hashString d.regionCode,
    d.membershipTier, d.joinTimeBracket]

/-- Embeds the `CensusParticipant` record (uuid and timestamp omitted, see
the conventions above). -/
structure CensusParticipant where
  passportCommitment : Nat
  demographicHash : Nat
  nullifier : Nat
  merkleIndex : Nat
  deriving DecidableEq

/-- Set-or-append a leaf of the participant tree at an index
(`MerkleTree.setLeaf`; the root is recomputed only by snapshot code no claim
touches, so only the leaf assignment is carried). -/
def setLeaf : List (Nat × Nat) → Nat → Nat → List (Nat × Nat)
  | [], i, v => [(i, v)]
  | (j, w) :: rest, i, v =>
      if j = i then (i, v) :: rest else (j, w) :: setLeaf rest i v

/-- Lookup in the nullifier `MerkleMap`: unset keys read as the zero field
element, keys the service has set read as one. -/
def nullifierMapGet (used : List Nat) (n : Nat) : Nat :=
  if n ∈ used then 1 else 0

/-- In-memory state of the census service. -/
structure CensusState where
  participantTreeLeaves : List (Nat × Nat)
  usedNullifiers : List Nat
  participants : List CensusParticipant
  aggregates : DemographicAggregatesData
  deriving DecidableEq

/-- The state built by the `CensusService` constructor: empty tree, empty
nullifier map, no participants, all-zero aggregates. -/
def CensusService.initialState : CensusState :=
  { participantTreeLeaves := []
    usedNullifiers := []
    participants := []
    aggregates :=
      { age0to17 := 0, age18to25 := 0, age26to35 := 0, age36to50 := 0,
        age51to65 := 0, age65plus := 0, total := 0,
        regionDistribution := [], tierDistribution := [] } }

/-- Embeds `CensusService.registerParticipant` in source order: derive the
nullifier from the passport commitment and the caller-chosen secret, reject
when it is already marked, otherwise set the leaf, mark the nullifier, append
the participant and update the aggregates. -/
def CensusService.registerParticipant (s : CensusState) (passportCommitment : Nat)
    (demographics : DemographicBrackets) (nullifierSecret : Nat) :
    CensusState × Bool :=
  let nullifier := Poseidon.hash [passportCommitment, nullifierSecret]
  if nullifierMapGet s.usedNullifiers nullifier = 1 then (s, false)
  else
    let demographicHash := CensusService.createDemographicHash demographics
    let participantEntry := Poseidon.hash [passportCommitment, demographicHash, nullifier]
    let merkleIndex := s.participants.length
    ({ participantTreeLeaves := setLeaf s.participantTreeLeaves merkleIndex participantEntry,
       usedNullifiers := nullifier :: s.usedNullifiers,
       participants := s.participants ++
         [{ passportCommitment := passportCommitment, demographicHash := demographicHash,
            nullifier := nullifier, merkleIndex := merkleIndex }],
       aggregates := CensusService.updateAggregates s.aggregates demographics }, true)

/-- Embeds `CensusService.getPopulation` (`participants.size`). -/
def CensusService.getPopulation (s : CensusState) : Nat := s.participants.length

/-- One registration request to the census service. -/
structure CensusRequest where
  passportCommitment : Nat
  demographics : DemographicBrackets
  nullifierSecret : Nat
  deriving DecidableEq

/-- Folds a sequence of registerParticipant calls over the service state,
counting the successful ones. -/
def CensusService.applyAll (s : CensusState) (reqs : List CensusRequest) :
    CensusState × Nat :=
  reqs.foldl
    (fun acc r =>
      let step := CensusService.registerParticipant acc.1 r.passportCommitment
        r.demographics r.nullifierSecret
      (step.1, acc.2 + if step.2 then 1 else 0))
    (s, 0)

/-- Sum of the six age-bucket counters of the service aggregates. -/
def bucketSum (a : DemographicAggregatesData) : Nat :=
  a.age0to17 + a.age18to25 + a.age26to35 + a.age36to50 + a.age51to65 + a.age65plus

/-- Concrete double-registration scenario: all-zero attribute commitments. -/
def reusedAttrs : IdentityAttributes :=
  { nameCommitment := 0, dobCommitment := 0, nationalityCommitment := 0,
    idCommitment := 0, salt := 0 }

/-- Empty-slot witness for index 0 of an otherwise empty height-20 tree. -/
def reusedW1 : List WitnessStep := List.replicate 20 { isLeft := true, sibling := 0 }

/-- Contract state holding the root certified by `reusedW1` for an empty leaf
(admin key 3, fresh counters, zero nullifier root). -/
def reusedS0 : ZkPassportState :=
  { passportRoot := calculateRoot reusedW1 0, totalPassports := 0, admin := 3,
    nullifierRoot := 0 }

/-- Admin signature over the identity hash and the nullifier 7 — the same
signed payload serves both registration attempts. -/
def reusedSig : Signature := Signature.create 3 [reusedAttrs.hash, 7]

/-- First registration presenting nullifier 7. -/
def reusedStep1 : ZkPassportState × Bool :=
  ZkPassport.registerPassport reusedS0 reusedAttrs 7 reusedW1 reusedSig

/-- Empty-slot witness for index 1 after the first registration: its bottom
sibling is the passport commitment just inserted at index 0. -/
def reusedW2 : List WitnessStep :=
  { isLeft := false, sibling := Poseidon.hash [reusedAttrs.hash, 7] } ::
    List.replicate 19 { isLeft := true, sibling := 0 }

/-- Second registration presenting the very same nullifier 7. -/
def reusedStep2 : ZkPassportState × Bool :=
  ZkPassport.registerPassport reusedStep1.1 reusedAttrs 7 reusedW2 reusedSig

/-- A concrete two-request sequence with in-range age brackets 2 and 5. -/
def inRangeRequests : List CensusRequest :=
  [{ passportCommitment := 3,
     demographics :=
       { ageBracket := 2, regionCode := [], membershipTier := 1, joinTimeBracket := 0 },
     nullifierSecret := 4 },
   { passportCommitment := 3,
     demographics :=
       { ageBracket := 5, regionCode := [], membershipTier := 1, joinTimeBracket := 0 },
     nullifierSecret := 9 }]

theorem encodeFields_inj : ∀ l1 l2 : List Nat, encodeFields l1 = encodeFields l2 → l1 = l2 := by
  intro l1
  induction l1 with
  | nil =>
    intro l2 h
    cases l2 with
    | nil => rfl
    | cons y ys => exact absurd h (by simp [encodeFields])
  | cons x xs ih =>
    intro l2 h
    cases l2 with
    | nil => exact absurd h (by simp [encodeFields])
    | cons y ys =>
      simp only [encodeFields] at h
      have h2 : Nat.pair x (encodeFields xs) = Nat.pair y (encodeFields ys) := by omega
      rw [Nat.pair_eq_pair] at h2
      rw [h2.1, ih ys h2.2]

theorem Poseidon.hash_inj {l1 l2 : List Nat} (h : Poseidon.hash l1 = Poseidon.hash l2) :
    l1 = l2 :=
  encodeFields_inj l1 l2 h

/-- The idealized hash strictly dominates its first input, so no value is a
fixed point of hashing it together with more data. -/
theorem lt_hash_cons (x : Nat) (xs : List Nat) : x < Poseidon.hash (x :: xs) := by
  simp only [Poseidon.hash, encodeFields]
  have := Nat.left_le_pair x (encodeFields xs)
  omega

theorem beNat_foldl (l : List Nat) (a : Nat) :
    l.foldl (fun a b => 256 * a + b) a = a * 256 ^ l.length + beNat l := by
  induction l generalizing a with
  | nil => simp [beNat]
  | cons b t ih =>
    have hbt : beNat (b :: t) = b * 256 ^ t.length + beNat t := by
      show List.foldl (fun a c => 256 * a + c) (256 * 0 + b) t = b * 256 ^ t.length + beNat t
      rw [Nat.mul_zero, Nat.zero_add, ih b]
    simp only [List.foldl_cons, List.length_cons, hbt]
    rw [ih (256 * a + b)]
    ring

theorem beNat_cons (b : Nat) (t : List Nat) :
    beNat (b :: t) = b * 256 ^ t.length + beNat t := by
  show List.foldl (fun a c => 256 * a + c) (256 * 0 + b) t = b * 256 ^ t.length + beNat t
  rw [Nat.mul_zero, Nat.zero_add, beNat_foldl]

theorem beNat_lt (l : List Nat) (h : ∀ b ∈ l, b < 256) : beNat l < 256 ^ l.length := by
  induction l with
  | nil => simp [beNat]
  | cons b t ih =>
    rw [beNat_cons, List.length_cons, pow_succ]
    have hb : b < 256 := h b (by simp)
    have ht : beNat t < 256 ^ t.length := ih (fun x hx => h x (by simp [hx]))
    have h5 : b * 256 ^ t.length ≤ 255 * 256 ^ t.length :=
      Nat.mul_le_mul_right _ (by omega)
    omega

theorem beNat_inj : ∀ l1 l2 : List Nat, l1.length = l2.length →
    (∀ b ∈ l1, b < 256) → (∀ b ∈ l2, b < 256) → beNat l1 = beNat l2 → l1 = l2 := by
  intro l1
  induction l1 with
  | nil =>
    intro l2 hlen _ _ _
    cases l2 with
    | nil => rfl
    | cons y ys => simp at hlen
  | cons b1 t1 ih =>
    intro l2 hlen hb1 hb2 heq
    cases l2 with
    | nil => simp at hlen
    | cons b2 t2 =>
      rw [beNat_cons, beNat_cons] at heq
      have hlt : t1.length = t2.length := by simpa using hlen
      rw [hlt] at heq
      have ht1 : beNat t1 < 256 ^ t2.length := by
        rw [← hlt]; exact beNat_lt t1 (fun x hx => hb1 x (by simp [hx]))
      have ht2 : beNat t2 < 256 ^ t2.length := beNat_lt t2 (fun x hx => hb2 x (by simp [hx]))
      have hBpos : 0 < 256 ^ t2.length := pow_pos (by norm_num) _
      have e1 : (256 ^ t2.length * b1 + beNat t1) / 256 ^ t2.length = b1 := by
        rw [Nat.mul_add_div hBpos, Nat.div_eq_of_lt ht1, Nat.add_zero]
      have e2 : (256 ^ t2.length * b2 + beNat t2) / 256 ^ t2.length = b2 := by
        rw [Nat.mul_add_div hBpos, Nat.div_eq_of_lt ht2, Nat.add_zero]
      rw [Nat.mul_comm b1, Nat.mul_comm b2] at heq
      have hb : b1 = b2 := by rw [← e1, ← e2, heq]
      have hr : beNat t1 = beNat t2 := by
        rw [hb] at heq; omega
      rw [hb, ih t2 hlt (fun x hx => hb1 x (by simp [hx]))
        (fun x hx => hb2 x (by simp [hx])) hr]

theorem chunkVal_inj (c1 c2 : List Nat) (hlen : c1.length = c2.length)
    (h1 : ∀ b ∈ c1, b < 256) (h2 : ∀ b ∈ c2, b < 256)
    (heq : chunkVal c1 = chunkVal c2) : c1 = c2 := by
  apply beNat_inj c1 c2 hlen h1 h2
  have hpos : 0 < 16 ^ (62 - 2 * c2.length) := pow_pos (by norm_num) _
  unfold chunkVal at heq
  rw [hlen] at heq
  exact Nat.eq_of_mul_eq_mul_right hpos heq

theorem chunksOf31_cons (x : Nat) (xs : List Nat) :
    chunksOf31 (x :: xs) = (x :: xs).take 31 :: chunksOf31 ((x :: xs).drop 31) := by
  unfold chunksOf31
  have hlen : ((x :: xs).length + 30) / 31 = (((x :: xs).drop 31).length + 30) / 31 + 1 := by
    simp only [List.length_cons, List.length_drop]
    omega
  rw [hlen, List.range_succ_eq_map, List.map_cons, List.map_map, List.cons_eq_cons]
  constructor
  · simp
  · refine List.map_congr_left ?_
    intro a ha
    show ((x :: xs).drop (31 * (a + 1))).take 31 =
      (((x :: xs).drop 31).drop (31 * a)).take 31
    rw [List.drop_drop, show 31 + 31 * a = 31 * (a + 1) from by ring]

theorem chunksOf31_map_inj : ∀ (n : Nat) (l1 l2 : List Nat), l1.length ≤ n →
    l1.length = l2.length → (∀ b ∈ l1, b < 256) → (∀ b ∈ l2, b < 256) →
    (chunksOf31 l1).map chunkVal = (chunksOf31 l2).map chunkVal → l1 = l2 := by
  intro n
  induction n with
  | zero =>
    intro l1 l2 h1 hlen _ _ _
    have e1 : l1 = [] := List.eq_nil_of_length_eq_zero (by omega)
    have e2 : l2 = [] := List.eq_nil_of_length_eq_zero (by omega)
    rw [e1, e2]
  | succ n ih =>
    intro l1 l2 hn hlen hb1 hb2 heq
    cases l1 with
    | nil =>
      cases l2 with
      | nil => rfl
      | cons y ys => simp at hlen
    | cons x xs =>
      cases l2 with
      | nil => simp at hlen
      | cons y ys =>
        rw [chunksOf31_cons, chunksOf31_cons, List.map_cons, List.map_cons] at heq
        have hhead := (List.cons.injEq _ _ _ _ ▸ heq).1
        have htail := (List.cons.injEq _ _ _ _ ▸ heq).2
        have htlen : ((x :: xs).take 31).length = ((y :: ys).take 31).length := by
          rw [List.length_take, List.length_take, hlen]
        have htake : (x :: xs).take 31 = (y :: ys).take 31 :=
          chunkVal_inj _ _ htlen
            (fun b hb => hb1 b (List.take_subset 31 _ hb))
            (fun b hb => hb2 b (List.take_subset 31 _ hb)) hhead
        have hdlen : ((x :: xs).drop 31).length = ((y :: ys).drop 31).length := by
          rw [List.length_drop, List.length_drop, hlen]
        have hdn : ((x :: xs).drop 31).length ≤ n := by
          rw [List.length_drop]
          simp only [List.length_cons] at hn ⊢
          omega
        have hdrop : (x :: xs).drop 31 = (y :: ys).drop 31 :=
          ih _ _ hdn hdlen
            (fun b hb => hb1 b (List.drop_subset 31 _ hb))
            (fun b hb => hb2 b (List.drop_subset 31 _ hb)) htail
        calc x :: xs = (x :: xs).take 31 ++ (x :: xs).drop 31 :=
              (List.take_append_drop _ _).symm
          _ = (y :: ys).take 31 ++ (y :: ys).drop 31 := by rw [htake, hdrop]
          _ = y :: ys := List.take_append_drop _ _

theorem stringFields_inj (b1 b2 : List Nat) (hlen : b1.length = b2.length)
    (h1 : ∀ x ∈ b1, x < 256) (h2 : ∀ x ∈ b2, x < 256)
    (heq : stringFields b1 = stringFields b2) : b1 = b2 := by
  cases b1 with
  | nil =>
    cases b2 with
    | nil => rfl
    | cons y ys => simp at hlen
  | cons x xs =>
    cases b2 with
    | nil => simp at hlen
    | cons y ys =>
      have e1 : stringFields (x :: xs) = (chunksOf31 (x :: xs)).map chunkVal := by
        rw [stringFields]
        simp [chunksOf31_cons]
      have e2 : stringFields (y :: ys) = (chunksOf31 (y :: ys)).map chunkVal := by
        rw [stringFields]
        simp [chunksOf31_cons]
      rw [e1, e2] at heq
      exact chunksOf31_map_inj (x :: xs).length _ _ (le_refl _) hlen h1 h2 heq

/-- C5: `ZkPassport.proveAgeAbove` succeeds exactly when the recomputed DOB
commitment matches the stored one and the plain year difference reaches
`minAge`; with a matching commitment the boundary year difference equal to
`minAge` passes and one less fails; and the current month/day inputs never
affect the outcome. -/
theorem c5_proveAgeAbove_spec :
    (∀ dy dm dd salt dobC minAge cy cm cd : Nat,
        ZkPassport.proveAgeAbove dy dm dd salt dobC minAge cy cm cd = true ↔
          (Poseidon.hash [dy, dm, dd, salt] = dobC ∧
            (minAge : Int) ≤ (cy : Int) - (dy : Int))) ∧
    (∀ dy dm dd salt minAge cm cd : Nat,
        ZkPassport.proveAgeAbove dy dm dd salt (Poseidon.hash [dy, dm, dd, salt])
          minAge (dy + minAge) cm cd = true) ∧
    (∀ dy dm dd salt minAge cy cm cd : Nat,
        (cy : Int) - (dy : Int) = (minAge : Int) - 1 →
        ZkPassport.proveAgeAbove dy dm dd salt (Poseidon.hash [dy, dm, dd, salt])
          minAge cy cm cd = false) ∧
    (∀ dy dm dd salt dobC minAge cy cm cd cm2 cd2 : Nat,
        ZkPassport.proveAgeAbove dy dm dd salt dobC minAge cy cm cd =
        ZkPassport.proveAgeAbove dy dm dd salt dobC minAge cy cm2 cd2) := by
  refine ⟨?_, ?_, ?_, ?_⟩
  · intro dy dm dd salt dobC minAge cy cm cd
    simp [ZkPassport.proveAgeAbove]
  · intro dy dm dd salt minAge cm cd
    simp only [ZkPassport.proveAgeAbove, Bool.and_eq_true, decide_eq_true_eq]
    constructor
    · trivial
    · push_cast
      omega
  · intro dy dm dd salt minAge cy cm cd h
    simp only [ZkPassport.proveAgeAbove, Bool.and_eq_false_iff, decide_eq_false_iff_not]
    right
    omega
  · intro dy dm dd salt dobC minAge cy cm cd cm2 cd2
    rfl

/-- Witness for c5_proveAgeAbove_spec at the spec's concrete scenario: DOB
year 1990, boundary minimum age 34, passing in 2024 and failing in 2023. -/
theorem c5_proveAgeAbove_spec_witness :
    ZkPassport.proveAgeAbove 1990 5 15 12345 (Poseidon.hash [1990, 5, 15, 12345])
      34 2024 1 1 = true ∧
    ((2023 : Int) - (1990 : Int) = (34 : Int) - 1 ∧
      ZkPassport.proveAgeAbove 1990 5 15 12345 (Poseidon.hash [1990, 5, 15, 12345])
        34 2023 1 1 = false) :=
  ⟨c5_proveAgeAbove_spec.2.1 1990 5 15 12345 34 1 1,
   by norm_num,
   c5_proveAgeAbove_spec.2.2.1 1990 5 15 12345 34 2023 1 1 (by norm_num)⟩

/-- C7: at date of birth 2000-06-15, current date 2018-03-01 and minimum age
18, the on-chain year-subtraction predicate passes while the off-chain
month/day-adjusted service computation yields age 17 and fails. -/
theorem c7_age_computations_disagree :
    ZkPassport.proveAgeAbove 2000 6 15 5 (Poseidon.hash [2000, 6, 15, 5])
      18 2018 3 1 = true ∧
    PassportService.ageProofIsValid 2000 6 15 2018 3 1 18 = false ∧
    PassportService.calculateAge 2000 6 15 2018 3 1 = 17 := by
  refine ⟨?_, ?_, ?_⟩ <;> decide

/-- C8 counterexample: the nationality strings with bytes of a three-letter
code in upper case and the same code in lower case differ only in letter
case, yet the off-chain service path reports a successful match. -/
theorem c8_service_match_is_case_insensitive :
    PassportService.nationalityProofIsValid [85, 83, 65] [117, 115, 97] = true ∧
    ([85, 83, 65] : List Nat) ≠ [117, 115, 97] ∧
    toLowerBytes [85, 83, 65] = toLowerBytes [117, 115, 97] := by
  refine ⟨?_, ?_, ?_⟩ <;> decide

/-- C8 amended: the on-chain `proveNationality` asserts the recomputed
commitment equals the stored one and then requires exact, case-sensitive
field equality with the target; the off-chain service flag performs no
commitment assertion and compares the two strings lowercased, so
nationalities differing only in case match in the service path. -/
theorem c8_nationality_paths :
    (∀ nationality salt nationalityCommitment targetNationality : Nat,
        ZkPassport.proveNationality nationality salt nationalityCommitment
            targetNationality = true ↔
          (Poseidon.hash [nationality, salt] = nationalityCommitment ∧
            nationality = targetNationality)) ∧
    (∀ nationality targetNationality : List Nat,
        PassportService.nationalityProofIsValid nationality targetNationality = true ↔
          toLowerBytes nationality = toLowerBytes targetNationality) := by
  constructor
  · intro n s c t
    simp [ZkPassport.proveNationality]
  · intro n t
    simp [PassportService.nationalityProofIsValid]

/-- Any registerPassport call — successful or not — leaves the nullifier
root exactly as it found it: the method never writes that state field. -/
theorem registerPassport_preserves_nullifierRoot (s : ZkPassportState)
    (a : IdentityAttributes) (n : Nat) (w : List WitnessStep) (sig : Signature) :
    ((ZkPassport.registerPassport s a n w sig).1).nullifierRoot = s.nullifierRoot := by
  unfold ZkPassport.registerPassport
  dsimp only
  split
  · split
    · rfl
    · rfl
  · rfl

/-- C9: registerPassport never writes the nullifier root; with a matching
admin signature, which nullifier is presented has no effect on whether the
call succeeds; and every sequence of registerPassport transactions from the
freshly initialized contract leaves the nullifier root at the initial zero
field element. -/
theorem c9_registerPassport_ignores_nullifier :
    (∀ (s : ZkPassportState) (a : IdentityAttributes) (n : Nat)
        (w : List WitnessStep) (sig : Signature),
        ((ZkPassport.registerPassport s a n w sig).1).nullifierRoot = s.nullifierRoot) ∧
    (∀ (s : ZkPassportState) (a : IdentityAttributes) (n1 n2 : Nat)
        (w : List WitnessStep),
        (ZkPassport.registerPassport s a n1 w
          (Signature.create s.admin [a.hash, n1])).2 =
        (ZkPassport.registerPassport s a n2 w
          (Signature.create s.admin [a.hash, n2])).2) ∧
    (∀ (admin : Nat)
        (calls : List (IdentityAttributes × Nat × List WitnessStep × Signature)),
        (ZkPassport.applyCalls (ZkPassport.init admin) calls).nullifierRoot = 0) := by
  refine ⟨registerPassport_preserves_nullifierRoot, ?_, ?_⟩
  · intro s a n1 n2 w
    unfold ZkPassport.registerPassport
    simp [Signature.verify, Signature.create]
    split <;> rfl
  · intro admin calls
    have h : ∀ (cs : List (IdentityAttributes × Nat × List WitnessStep × Signature))
        (s : ZkPassportState), (ZkPassport.applyCalls s cs).nullifierRoot = s.nullifierRoot := by
      intro cs
      induction cs with
      | nil => intro s; rfl
      | cons c rest ih =>
        intro s
        show (ZkPassport.applyCalls
          (ZkPassport.registerPassport s c.1 c.2.1 c.2.2.1 c.2.2.2).1 rest).nullifierRoot = _
        rw [ih, registerPassport_preserves_nullifierRoot]
    rw [h]
    rfl

/-- Every updateAggregates call increments the running total by one,
whatever the age bracket. -/
theorem updateAggregates_total (a : DemographicAggregatesData) (d : DemographicBrackets) :
    (CensusService.updateAggregates a d).total = a.total + 1 := by
  unfold CensusService.updateAggregates
  dsimp only
  split
  · split
    · rfl
    · split
      · rfl
      · split
        · rfl
        · split
          · rfl
          · split
            · rfl
            · rfl
  · rfl

/-- C10: the census service derives the nullifier from the passport
commitment and the caller-chosen secret alone, so the same commitment
registers twice under two secrets with distinct derived nullifiers, and the
population total grows by two — duplicate detection is per pair, not per
underlying participant. -/
theorem c10_per_pair_duplicate_detection (pc sec1 sec2 : Nat)
    (d1 d2 : DemographicBrackets)
    (hne : Poseidon.hash [pc, sec1] ≠ Poseidon.hash [pc, sec2]) :
    (CensusService.registerParticipant CensusService.initialState pc d1 sec1).2 = true ∧
    (CensusService.registerParticipant
        (CensusService.registerParticipant CensusService.initialState pc d1 sec1).1
        pc d2 sec2).2 = true ∧
    CensusService.getPopulation
      (CensusService.registerParticipant
          (CensusService.registerParticipant CensusService.initialState pc d1 sec1).1
          pc d2 sec2).1 = 2 ∧
    (CensusService.registerParticipant
        (CensusService.registerParticipant CensusService.initialState pc d1 sec1).1
        pc d2 sec2).1.aggregates.total = 2 := by
  have hne2 := Ne.symm hne
  refine ⟨?_, ?_, ?_, ?_⟩
  · simp [CensusService.registerParticipant, nullifierMapGet, CensusService.initialState]
  · simp [CensusService.registerParticipant, nullifierMapGet, CensusService.initialState, hne2]
  · simp [CensusService.registerParticipant, nullifierMapGet, CensusService.initialState,
      CensusService.getPopulation, hne2]
  · simp [CensusService.registerParticipant, nullifierMapGet, CensusService.initialState,
      hne2, updateAggregates_total]

/-- Witness for c10 at passport commitment 3 and the distinct secrets 1, 2. -/
theorem c10_per_pair_duplicate_detection_witness :
    Poseidon.hash [3, 1] ≠ Poseidon.hash [3, 2] ∧
    ((CensusService.registerParticipant CensusService.initialState 3
        { ageBracket := 1, regionCode := [], membershipTier := 1, joinTimeBracket := 0 } 1).2 = true ∧
      (CensusService.registerParticipant
          (CensusService.registerParticipant CensusService.initialState 3
            { ageBracket := 1, regionCode := [], membershipTier := 1, joinTimeBracket := 0 } 1).1
          3 { ageBracket := 2, regionCode := [], membershipTier := 1, joinTimeBracket := 0 } 2).2 = true ∧
      CensusService.getPopulation
        (CensusService.registerParticipant
            (CensusService.registerParticipant CensusService.initialState 3
              { ageBracket := 1, regionCode := [], membershipTier := 1, joinTimeBracket := 0 } 1).1
            3 { ageBracket := 2, regionCode := [], membershipTier := 1, joinTimeBracket := 0 } 2).1 = 2 ∧
      (CensusService.registerParticipant
          (CensusService.registerParticipant CensusService.initialState 3
            { ageBracket := 1, regionCode := [], membershipTier := 1, joinTimeBracket := 0 } 1).1
          3 { ageBracket := 2, regionCode := [], membershipTier := 1, joinTimeBracket := 0 } 2).1.aggregates.total = 2) :=
  ⟨by decide,
   c10_per_pair_duplicate_detection 3 1 2
     { ageBracket := 1, regionCode := [], membershipTier := 1, joinTimeBracket := 0 }
     { ageBracket := 2, regionCode := [], membershipTier := 1, joinTimeBracket := 0 }
     (by decide)⟩

/-- C3: a failing registration returns the state it was given, unchanged —
the embeddings mirror the source order, in which every validation precedes
every mutation, for the census service, the ZkCensus contract method and the
ZkPassport contract method alike. -/
theorem c3_failed_registration_preserves_state :
    (∀ (s : CensusState) (pc : Nat) (d : DemographicBrackets) (sec : Nat),
        (CensusService.registerParticipant s pc d sec).2 = false →
        (CensusService.registerParticipant s pc d sec).1 = s) ∧
    (∀ (s : ZkCensusState) (pc n : Nat) (d : DemographicData)
        (pw : List WitnessStep) (nw : MerkleMapWitness),
        (ZkCensus.registerParticipant s pc n d pw nw).2 = false →
        (ZkCensus.registerParticipant s pc n d pw nw).1 = s) ∧
    (∀ (s : ZkPassportState) (a : IdentityAttributes) (n : Nat)
        (w : List WitnessStep) (sig : Signature),
        (ZkPassport.registerPassport s a n w sig).2 = false →
        (ZkPassport.registerPassport s a n w sig).1 = s) := by
  refine ⟨?_, ?_, ?_⟩
  · intro s pc d sec
    by_cases hc : nullifierMapGet s.usedNullifiers (Poseidon.hash [pc, sec]) = 1
    · intro _
      simp [CensusService.registerParticipant, hc]
    · intro h
      exfalso
      simp [CensusService.registerParticipant, hc] at h
  · intro s pc n d pw nw
    by_cases h1 : (nw.computeRootAndKeyV2 0).1 = s.nullifierRoot
    · by_cases h2 : (nw.computeRootAndKeyV2 0).2 = n
      · by_cases h3 : calculateRoot pw 0 = s.participantRoot
        · intro h
          exfalso
          simp [ZkCensus.registerParticipant, h1, h2, h3] at h
        · intro _
          simp [ZkCensus.registerParticipant, h1, h2, h3]
      · intro _
        simp [ZkCensus.registerParticipant, h1, h2]
    · intro _
      simp [ZkCensus.registerParticipant, h1]
  · intro s a n w sig
    by_cases h1 : sig.verify s.admin [a.hash, n] = true
    · by_cases h2 : calculateRoot w 0 = s.passportRoot
      · intro h
        exfalso
        simp [ZkPassport.registerPassport, h1, h2] at h
      · intro _
        simp [ZkPassport.registerPassport, h1, h2]
    · intro _
      simp [ZkPassport.registerPassport, h1]

/-- Witness for c3 at concrete failing inputs: a duplicate nullifier for the
service, a nullifier-witness root mismatch for the ZkCensus method, and a
wrongly-keyed signature for the ZkPassport method. -/
theorem c3_failed_registration_preserves_state_witness :
    ((CensusService.registerParticipant
        { participantTreeLeaves := [], usedNullifiers := [Poseidon.hash [3, 4]],
          participants := [], aggregates := CensusService.initialState.aggregates } 3
        { ageBracket := 1, regionCode := [], membershipTier := 1, joinTimeBracket := 0 }
        4).2 = false ∧
      (CensusService.registerParticipant
        { participantTreeLeaves := [], usedNullifiers := [Poseidon.hash [3, 4]],
          participants := [], aggregates := CensusService.initialState.aggregates } 3
        { ageBracket := 1, regionCode := [], membershipTier := 1, joinTimeBracket := 0 }
        4).1 =
        { participantTreeLeaves := [], usedNullifiers := [Poseidon.hash [3, 4]],
          participants := [], aggregates := CensusService.initialState.aggregates }) ∧
    ((ZkCensus.registerParticipant
        { participantRoot := 0, totalParticipants := 0, nullifierRoot := 0,
          latestSnapshotHash := 0, admin := 0, communityId := 0, demographicsHash := 0 }
        1 2 { ageBracket := 0, regionCode := 0, membershipTier := 0, joinTimeBracket := 0 }
        [] { key := 2, rootAt := fun _ => 1 }).2 = false ∧
      (ZkCensus.registerParticipant
        { participantRoot := 0, totalParticipants := 0, nullifierRoot := 0,
          latestSnapshotHash := 0, admin := 0, communityId := 0, demographicsHash := 0 }
        1 2 { ageBracket := 0, regionCode := 0, membershipTier := 0, joinTimeBracket := 0 }
        [] { key := 2, rootAt := fun _ => 1 }).1 =
        { participantRoot := 0, totalParticipants := 0, nullifierRoot := 0,
          latestSnapshotHash := 0, admin := 0, communityId := 0, demographicsHash := 0 }) ∧
    ((ZkPassport.registerPassport (ZkPassport.init 3)
        { nameCommitment := 0, dobCommitment := 0, nationalityCommitment := 0,
          idCommitment := 0, salt := 0 } 7 []
        { signerKey := 1, message := [] }).2 = false ∧
      (ZkPassport.registerPassport (ZkPassport.init 3)
        { nameCommitment := 0, dobCommitment := 0, nationalityCommitment := 0,
          idCommitment := 0, salt := 0 } 7 []
        { signerKey := 1, message := [] }).1 = ZkPassport.init 3) :=
  ⟨⟨by decide, c3_failed_registration_preserves_state.1 _ 3 _ 4 (by decide)⟩,
   ⟨by rfl, c3_failed_registration_preserves_state.2.1 _ 1 2 _ [] _ (by rfl)⟩,
   ⟨by decide, c3_failed_registration_preserves_state.2.2 _ _ 7 [] _ (by decide)⟩⟩

/-- An in-range age bracket bumps exactly one bucket, so the bucket sum also
grows by one. -/
theorem updateAggregates_bucketSum_inRange (a : DemographicAggregatesData)
    (d : DemographicBrackets) (h : 0 ≤ d.ageBracket ∧ d.ageBracket < 6) :
    bucketSum (CensusService.updateAggregates a d) = bucketSum a + 1 := by
  unfold CensusService.updateAggregates bucketSum
  dsimp only
  rw [if_pos h]
  repeat' split
  all_goals dsimp only
  all_goals omega

/-- Folding registerParticipant calls from an arbitrary success count shifts
the final count accordingly. -/
theorem applyAll_shift : ∀ (reqs : List CensusRequest) (s : CensusState) (c : Nat),
    reqs.foldl
      (fun acc r =>
        let step := CensusService.registerParticipant acc.1 r.passportCommitment
          r.demographics r.nullifierSecret
        (step.1, acc.2 + if step.2 then 1 else 0))
      (s, c) =
    ((CensusService.applyAll s reqs).1, c + (CensusService.applyAll s reqs).2) := by
  intro reqs
  induction reqs with
  | nil =>
    intro s c
    simp [CensusService.applyAll]
  | cons r rs ih =>
    intro s c
    simp only [CensusService.applyAll, List.foldl_cons]
    rw [ih, ih]
    simp only [Prod.mk.injEq, true_and]
    omega

/-- Unfold one registration step of applyAll. -/
theorem applyAll_cons (s : CensusState) (r : CensusRequest) (rs : List CensusRequest) :
    CensusService.applyAll s (r :: rs) =
      ((CensusService.applyAll
          (CensusService.registerParticipant s r.passportCommitment
            r.demographics r.nullifierSecret).1 rs).1,
        (if (CensusService.registerParticipant s r.passportCommitment
            r.demographics r.nullifierSecret).2 then 1 else 0) +
        (CensusService.applyAll
          (CensusService.registerParticipant s r.passportCommitment
            r.demographics r.nullifierSecret).1 rs).2) := by
  conv_lhs => rw [CensusService.applyAll]
  rw [List.foldl_cons]
  dsimp only
  rw [Nat.zero_add]
  exact applyAll_shift rs _ _

/-- Conservation invariant of the census service: starting from a state whose
bucket sum matches its total, any sequence of registration requests whose age
brackets are all in range keeps the bucket sum equal to the total and grows
the total by exactly the number of successful calls. -/
theorem applyAll_conservation : ∀ (reqs : List CensusRequest) (s : CensusState),
    (∀ r ∈ reqs, 0 ≤ r.demographics.ageBracket ∧ r.demographics.ageBracket < 6) →
    bucketSum s.aggregates = s.aggregates.total →
    bucketSum (CensusService.applyAll s reqs).1.aggregates =
      (CensusService.applyAll s reqs).1.aggregates.total ∧
    (CensusService.applyAll s reqs).1.aggregates.total =
      s.aggregates.total + (CensusService.applyAll s reqs).2 := by
  intro reqs
  induction reqs with
  | nil =>
    intro s _ hs
    simpa [CensusService.applyAll] using hs
  | cons r rs ih =>
    intro s hr hs
    have hr0 := hr r (by simp)
    have hrs : ∀ q ∈ rs, 0 ≤ q.demographics.ageBracket ∧ q.demographics.ageBracket < 6 :=
      fun q hq => hr q (by simp [hq])
    rw [applyAll_cons]
    by_cases hc : nullifierMapGet s.usedNullifiers
        (Poseidon.hash [r.passportCommitment, r.nullifierSecret]) = 1
    · have hstep : CensusService.registerParticipant s r.passportCommitment
          r.demographics r.nullifierSecret = (s, false) := by
        simp [CensusService.registerParticipant, hc]
      rw [hstep]
      dsimp only
      simp only [Bool.false_eq_true, if_false, Nat.zero_add]
      exact ⟨(ih s hrs hs).1, (ih s hrs hs).2⟩
    · set st := CensusService.registerParticipant s r.passportCommitment
        r.demographics r.nullifierSecret with hst
      have hstep2 : st.2 = true := by
        rw [hst]
        simp [CensusService.registerParticipant, hc]
      have hagg : st.1.aggregates =
          CensusService.updateAggregates s.aggregates r.demographics := by
        rw [hst]
        simp [CensusService.registerParticipant, hc]
      have htot2 : st.1.aggregates.total = s.aggregates.total + 1 := by
        rw [hagg, updateAggregates_total]
      have hinv2 : bucketSum st.1.aggregates = st.1.aggregates.total := by
        rw [hagg, updateAggregates_bucketSum_inRange _ _ hr0, updateAggregates_total, hs]
      obtain ⟨ha, hb⟩ := ih st.1 hrs hinv2
      rw [hstep2]
      dsimp only
      simp only [if_true]
      exact ⟨ha, by omega⟩

/-- C2 counterexample: a single successful registration whose age bracket 6
lies outside 0..5 increments the total but no bucket, so the bucket sum 0
differs from the total 1 (which equals the number of successful calls). -/
theorem c2_out_of_range_bracket_breaks_conservation :
    (CensusService.registerParticipant CensusService.initialState 3
        { ageBracket := 6, regionCode := [], membershipTier := 1, joinTimeBracket := 0 }
        4).2 = true ∧
    bucketSum (CensusService.registerParticipant CensusService.initialState 3
        { ageBracket := 6, regionCode := [], membershipTier := 1, joinTimeBracket := 0 }
        4).1.aggregates = 0 ∧
    (CensusService.registerParticipant CensusService.initialState 3
        { ageBracket := 6, regionCode := [], membershipTier := 1, joinTimeBracket := 0 }
        4).1.aggregates.total = 1 := by
  refine ⟨?_, ?_, ?_⟩ <;> decide

/-- C2 amended: after any sequence of registerParticipant calls from the
initial service state whose age brackets all lie in 0..5, the six age-bucket
counters sum to the stored total, which equals the number of successful
registrations; a bracket outside 0..5 instead increments the total without
touching any bucket. -/
theorem c2_aggregate_conservation (reqs : List CensusRequest)
    (h : ∀ r ∈ reqs, 0 ≤ r.demographics.ageBracket ∧ r.demographics.ageBracket < 6) :
    bucketSum (CensusService.applyAll CensusService.initialState reqs).1.aggregates =
      (CensusService.applyAll CensusService.initialState reqs).1.aggregates.total ∧
    (CensusService.applyAll CensusService.initialState reqs).1.aggregates.total =
      (CensusService.applyAll CensusService.initialState reqs).2 := by
  have h0 : bucketSum CensusService.initialState.aggregates =
      CensusService.initialState.aggregates.total := by decide
  obtain ⟨ha, hb⟩ := applyAll_conservation reqs CensusService.initialState h h0
  refine ⟨ha, ?_⟩
  rw [hb]
  have h00 : CensusService.initialState.aggregates.total = 0 := rfl
  omega

/-- Witness for c2 on a two-request in-range sequence. -/
theorem c2_aggregate_conservation_witness :
    (∀ r ∈ inRangeRequests,
        0 ≤ r.demographics.ageBracket ∧ r.demographics.ageBracket < 6) ∧
    (bucketSum (CensusService.applyAll CensusService.initialState
          inRangeRequests).1.aggregates =
        (CensusService.applyAll CensusService.initialState
          inRangeRequests).1.aggregates.total ∧
      (CensusService.applyAll CensusService.initialState
          inRangeRequests).1.aggregates.total =
        (CensusService.applyAll CensusService.initialState inRangeRequests).2) :=
  ⟨by decide, c2_aggregate_conservation inRangeRequests (by decide)⟩

/-- Two hash applications with argument lists of different lengths never
collide under the injective hash model. -/
theorem hash_two_ne_hash_three (a b c d e : Nat) :
    Poseidon.hash [a, b] ≠ Poseidon.hash [c, d, e] := by
  intro h
  have := Poseidon.hash_inj h
  simp at this

/-- C4 counterexample: the byte strings of "a" and "a\x00" are distinct, yet
the right-zero-padded 31-byte chunk encoding assigns them the same chunk
value, so both the salted commitment and the bare string hash coincide. -/
theorem c4_zero_padding_collision :
    ([97] : List Nat) ≠ [97, 0] ∧
    createStringCommitment [97] 5 = createStringCommitment [97, 0] 5 ∧
    CensusService.hashString [97] = CensusService.hashString [97, 0] := by
  refine ⟨?_, ?_, ?_⟩ <;> decide

/-- C4 amended: under the idealized collision-free hash, distinct string
values of equal byte length (same salt) always receive distinct commitments
and distinct bare string hashes; the only deterministic collisions of the
encoding are the zero-padding aliases exhibited by the counterexample. -/
theorem c4_commitment_binding (b1 b2 : List Nat) (salt : Nat)
    (hlen : b1.length = b2.length)
    (h1 : ∀ x ∈ b1, x < 256) (h2 : ∀ x ∈ b2, x < 256) (hne : b1 ≠ b2) :
    createStringCommitment b1 salt ≠ createStringCommitment b2 salt ∧
    CensusService.hashString b1 ≠ CensusService.hashString b2 := by
  constructor
  · intro h
    apply hne
    unfold createStringCommitment at h
    have hl := Poseidon.hash_inj h
    have hf : Poseidon.hash (stringFields b1) = Poseidon.hash (stringFields b2) := by
      simpa using hl
    exact stringFields_inj b1 b2 hlen h1 h2 (Poseidon.hash_inj hf)
  · intro h
    apply hne
    unfold CensusService.hashString at h
    exact stringFields_inj b1 b2 hlen h1 h2 (Poseidon.hash_inj h)

/-- Witness for c4 on the distinct single-byte strings 0 and 1 under salt 5. -/
theorem c4_commitment_binding_witness :
    ([0] : List Nat).length = ([1] : List Nat).length ∧
    (∀ x ∈ ([0] : List Nat), x < 256) ∧ (∀ x ∈ ([1] : List Nat), x < 256) ∧
    ([0] : List Nat) ≠ [1] ∧
    (createStringCommitment [0] 5 ≠ createStringCommitment [1] 5 ∧
      CensusService.hashString [0] ≠ CensusService.hashString [1]) :=
  ⟨rfl, by decide, by decide, by decide,
   c4_commitment_binding [0] [1] 5 rfl (by decide) (by decide) (by decide)⟩

/-- C6 amended: the nullifier inside registerIdentity and the census utility
nullifier follow the spec formulas; but the standalone
`PassportUtils.createNullifier` computes the salted chunk hash itself — it
coincides with `commitString(idNumber, secret)` and never with the spec's
`Hash(commitString(idNumber, secret), secret)` — and the census service
derives `Hash(passportCommitment, secret)` with no context identifier, which
never equals the context-bound census formula. -/
theorem c6_nullifier_derivations :
    (∀ (idNumber : List Nat) (secret : Nat),
        PassportService.registerIdentityNullifier idNumber secret =
          Poseidon.hash [createStringCommitment idNumber secret, secret]) ∧
    (∀ (pc censusId secret : Nat),
        CensusUtils.createCensusNullifier pc censusId secret =
          Poseidon.hash [pc, censusId, secret]) ∧
    (∀ (idNumber : List Nat) (secret : Nat),
        PassportUtils.createNullifier idNumber secret =
          createStringCommitment idNumber secret) ∧
    (∀ (idNumber : List Nat) (secret : Nat),
        PassportUtils.createNullifier idNumber secret ≠
          Poseidon.hash [createStringCommitment idNumber secret, secret]) ∧
    (∀ (pc : Nat) (d : DemographicBrackets) (sec : Nat),
        ((CensusService.registerParticipant CensusService.initialState pc d sec).1.participants.map
          fun p => p.nullifier) = [Poseidon.hash [pc, sec]]) ∧
    (∀ (pc sec censusId : Nat),
        Poseidon.hash [pc, sec] ≠ CensusUtils.createCensusNullifier pc censusId sec) := by
  refine ⟨?_, ?_, ?_, ?_, ?_, ?_⟩
  · intro idNumber secret
    rfl
  · intro pc censusId secret
    rfl
  · intro idNumber secret
    rfl
  · intro idNumber secret h
    have hl := Poseidon.hash_inj h
    have hx : Poseidon.hash (stringFields idNumber) =
        createStringCommitment idNumber secret := by
      simpa [PassportUtils.createNullifier, createStringCommitment] using congrArg List.head? hl
    have hlt := lt_hash_cons (Poseidon.hash (stringFields idNumber)) [secret]
    rw [createStringCommitment] at hx
    omega
  · intro pc d sec
    simp [CensusService.registerParticipant, nullifierMapGet, CensusService.initialState]
  · intro pc sec censusId h
    have := Poseidon.hash_inj h
    simp [CensusUtils.createCensusNullifier] at this

/-- C6 counterexample at concrete inputs: the standalone createNullifier on
the one-byte id 65 with secret 5 differs from the spec formula, and the
nullifier the census service actually stores for commitment 3 and secret 4 is
the two-element hash, never the context-bound three-element census formula. -/
theorem c6_nullifier_formula_deviations :
    PassportUtils.createNullifier [65] 5 ≠
      Poseidon.hash [createStringCommitment [65] 5, 5] ∧
    ((CensusService.registerParticipant CensusService.initialState 3
        { ageBracket := 1, regionCode := [], membershipTier := 1, joinTimeBracket := 0 }
        4).1.participants.map fun p => p.nullifier) = [Poseidon.hash [3, 4]] ∧
    Poseidon.hash [3, 4] ≠ CensusUtils.createCensusNullifier 3 1 4 := by
  refine ⟨?_, ?_, ?_⟩ <;> decide

/-- C1 (code bug, executable demonstration): after a successful
registerPassport with nullifier 7, a second registerPassport presenting the
very same nullifier 7 (same attribute commitments, fresh empty-slot witness,
valid admin signature) also succeeds: the passport counter reaches 2 and the
nullifier root still holds the initial zero — the contract never records nor
checks used nullifiers, despite its stated purpose of preventing double
registration. -/
theorem c1_registerPassport_accepts_reused_nullifier :
    reusedStep1.2 = true ∧ reusedStep2.2 = true ∧
    reusedStep2.1.totalPassports = 2 ∧ reusedStep2.1.nullifierRoot = 0 := by
  refine ⟨?_, ?_, ?_, ?_⟩ <;> decide
